import Mathlib

/-!
# Verification of the smbc-daily scraper and summary generator

Shallow embedding of `src/scraper.py` and `src/update_readme.py`.
Python strings are modelled as `List Char`; the BeautifulSoup document
tree is modelled as an HTML node tree, with the parser collaborator
operations behind an operation record so that the exception-handling
control flow of `extract_comic_data` is visible.
-/

/-- Python strings are modelled as lists of characters. -/
abbrev Str := List Char

/-- The record produced by `extract_comic_data`: the dict with keys
`image_url`, `title`, `date`, `hover_text`. -/
structure ComicRecord where
  image_url : Str
  title : Str
  date : Str
  hover_text : Str
deriving DecidableEq, Repr

/-- `INVALID_FILENAME_CHARS` from scraper.py line 21. -/
def INVALID_FILENAME_CHARS : List Char :=
  ['/', '\\', '?', '%', '*', ':', '|', '"', '<', '>', '.']

/-- `sanitize_filename` from scraper.py: keep exactly the characters not in
`INVALID_FILENAME_CHARS` (a Python generator-expression join). -/
def sanitize_filename (filename : Str) : Str :=
  filename.filter (fun c => decide (c ∉ INVALID_FILENAME_CHARS))

/-- Python `s.startswith(pre)`. -/
def pyStartsWith : Str → Str → Bool
  | [], _ => true
  | _ :: _, [] => false
  | p :: ps, c :: cs => p == c && pyStartsWith ps cs

/-- Python `s.strip()`: drop whitespace from both ends. -/
def pyStrip (s : Str) : Str :=
  ((s.dropWhile Char.isWhitespace).reverse.dropWhile Char.isWhitespace).reverse

/-- Python `s.split(sep)` for a one-character separator: split on every
occurrence, keeping empty segments; the result is never empty. -/
def splitOnChar (sep : Char) : Str → List Str
  | [] => [[]]
  | c :: cs =>
    if c == sep then [] :: splitOnChar sep cs
    else
      match splitOnChar sep cs with
      | [] => [[c]]
      | r :: rs => (c :: r) :: rs

/-- Python `line.split(sep, 1)` when `sep` occurs in `line`: the part before
the first occurrence and the part after it. -/
def splitFirstOn (sep : Char) : Str → Str × Str
  | [] => ([], [])
  | c :: cs =>
    if c == sep then ([], cs)
    else
      let p := splitFirstOn sep cs
      (c :: p.1, p.2)

/-- The metadata file content written by `get_current_comic`
(scraper.py lines 204-207): four `Key: value` lines. -/
def metadataContent (cd : ComicRecord) : Str :=
  "Title: ".toList ++ cd.title ++ "\n".toList ++
  "Date: ".toList ++ cd.date ++ "\n".toList ++
  "Hover Text: ".toList ++ cd.hover_text ++ "\n".toList ++
  "Image URL: ".toList ++ cd.image_url ++ "\n".toList

/-- One step of the metadata-parsing loop of `get_most_recent_comic`
(update_readme.py lines 47-50): if the line contains a colon, split at the
first colon and update the dict with the stripped key and value. -/
def parseMetadataLine (m : Str → Option Str) (line : Str) : Str → Option Str :=
  if line.any (fun c => c == ':') then
    let kv := splitFirstOn ':' line
    fun k => if k == pyStrip kv.1 then some (pyStrip kv.2) else m k
  else m

/-- The metadata dict built by `get_most_recent_comic` from a file content:
iterate the colon-split parse over the lines. -/
def parseMetadata (content : Str) : Str → Option Str :=
  (splitOnChar '\n' content).foldl parseMetadataLine (fun _ => none)

/-- Error kinds caught by the `except (AttributeError, KeyError, TypeError)`
clause of `extract_comic_data` (scraper.py line 104). -/
inductive PyErr where
  | attributeError
  | keyError
  | typeError
deriving DecidableEq

/-- The HTML-parser collaborator operations used by `extract_comic_data`,
each possibly raising a structural-access error: find-first-descendant by
tag/id/class, attribute membership and access, and trimmed text. -/
structure SoupOps (S : Type) where
  findDivById : S → Str → Except PyErr (Option S)
  findFirstTag : S → Str → Except PyErr (Option S)
  findDivByClass : S → Str → Except PyErr (Option S)
  attrsHas : S → Str → Except PyErr Bool
  attrGet : S → Str → Except PyErr Str
  attrGetD : S → Str → Str → Except PyErr Str
  textStrip : S → Except PyErr Str

/-- The id of the comic body container, scraper.py line 69. -/
def comicBodyId : Str := "cc-comicbody".toList

/-- The id of the blog area container, scraper.py line 83. -/
def blogAreaId : Str := "blogarea".toList

/-- The news-header class, scraper.py line 88. -/
def newsHeaderClass : Str := "cc-newsheader".toList

/-- The publish-time class, scraper.py line 94. -/
def publishTimeClass : Str := "cc-publishtime".toList

/-- Steps 1-3 of `extract_comic_data` (scraper.py lines 69-80): locate the
comic div and its image, require the `src` attribute, and read the
image URL and the hover text (the `title` attribute, default empty). -/
def extractImagePart {S : Type} (ops : SoupOps S) (soup : S) :
    Except PyErr (Option (Str × Str)) := do
  let comicDiv ← ops.findDivById soup comicBodyId
  match comicDiv with
  | none => pure none
  | some cd => do
    let comicImg ← ops.findFirstTag cd ("img".toList)
    match comicImg with
    | none => pure none
    | some img => do
      let hasSrc ← ops.attrsHas img ("src".toList)
      if hasSrc then do
        let imageUrl ← ops.attrGet img ("src".toList)
        let hoverText ← ops.attrGetD img ("title".toList) []
        pure (some (imageUrl, hoverText))
      else pure none

/-- Steps 4-6 of `extract_comic_data` (scraper.py lines 83-96): the blog
area lookup producing title and date, both defaulting to `"unknown"`. -/
def extractTitleDate {S : Type} (ops : SoupOps S) (soup : S) :
    Except PyErr (Str × Str) := do
  let blogArea ← ops.findDivById soup blogAreaId
  match blogArea with
  | none => pure (("unknown".toList), ("unknown".toList))
  | some ba => do
    let newsHeader ← ops.findDivByClass ba newsHeaderClass
    let title ←
      match newsHeader with
      | none => pure ("unknown".toList)
      | some nh => do
        let titleLink ← ops.findFirstTag nh ("a".toList)
        match titleLink with
        | none => pure ("unknown".toList)
        | some a => ops.textStrip a
    let publishTimeDiv ← ops.findDivByClass ba publishTimeClass
    let date ←
      match publishTimeDiv with
      | none => pure ("unknown".toList)
      | some pt => ops.textStrip pt
    pure (title, date)

/-- The body of the `try:` block of `extract_comic_data`
(scraper.py lines 67-103). -/
def extract_comic_data_body {S : Type} (ops : SoupOps S) (soup : S) :
    Except PyErr (Option ComicRecord) := do
  let part ← extractImagePart ops soup
  match part with
  | none => pure none
  | some iu => do
    let td ← extractTitleDate ops soup
    pure (some ⟨iu.1, td.1, td.2, iu.2⟩)

/-- `extract_comic_data` from scraper.py: run the body; any
AttributeError/KeyError/TypeError is caught and yields `None`. -/
def extract_comic_data {S : Type} (ops : SoupOps S) (soup : S) :
    Option ComicRecord :=
  match extract_comic_data_body ops soup with
  | Except.ok r => r
  | Except.error _ => none

/-- A parsed HTML document: text nodes and elements with a tag name, an
attribute list, and children. -/
inductive HtmlNode where
  | textNode : Str → HtmlNode
  | elem : Str → List (Str × Str) → List HtmlNode → HtmlNode

mutual

/-- First descendant of a node (the node itself excluded, matching
BeautifulSoup `tag.find`) satisfying `p`, in document order. -/
def findFirst (p : HtmlNode → Bool) : HtmlNode → Option HtmlNode
  | HtmlNode.textNode _ => none
  | HtmlNode.elem _ _ cs => findFirstInList p cs

/-- First node in a forest, or descendant of one, satisfying `p`. -/
def findFirstInList (p : HtmlNode → Bool) : List HtmlNode → Option HtmlNode
  | [] => none
  | n :: ns =>
    if p n then some n
    else
      match findFirst p n with
      | some r => some r
      | none => findFirstInList p ns

end

mutual

/-- BeautifulSoup `get_text`: concatenation of all descendant text. -/
def getTextNode : HtmlNode → Str
  | HtmlNode.textNode s => s
  | HtmlNode.elem _ _ cs => getTextList cs

/-- Concatenated text of a forest. -/
def getTextList : List HtmlNode → Str
  | [] => []
  | n :: ns => getTextNode n ++ getTextList ns

end

/-- The attribute list of an element node; `none` on a text node (on which
attribute access would raise in Python). -/
def htmlAttrs (n : HtmlNode) : Option (List (Str × Str)) :=
  match n with
  | HtmlNode.elem _ attrs _ => some attrs
  | HtmlNode.textNode _ => none

/-- The whitespace-separated class list of an attribute list. -/
def classListOf (attrs : List (Str × Str)) : List Str :=
  match attrs.lookup ("class".toList) with
  | none => []
  | some v => (splitOnChar ' ' v).filter (fun w => !w.isEmpty)

/-- `soup.find("div", id=i)` matcher. -/
def isDivWithId (i : Str) (n : HtmlNode) : Bool :=
  match n with
  | HtmlNode.elem t attrs _ => t == "div".toList && attrs.lookup ("id".toList) == some i
  | HtmlNode.textNode _ => false

/-- `soup.find("div", class_=c)` matcher. -/
def isDivWithClass (c : Str) (n : HtmlNode) : Bool :=
  match n with
  | HtmlNode.elem t attrs _ => t == "div".toList && (classListOf attrs).contains c
  | HtmlNode.textNode _ => false

/-- `soup.find(tag)` matcher. -/
def isTagNamed (tag : Str) (n : HtmlNode) : Bool :=
  match n with
  | HtmlNode.elem t _ _ => t == tag
  | HtmlNode.textNode _ => false

/-- The concrete BeautifulSoup collaborator over `HtmlNode` documents:
total lookups, attribute access raising only where Python would. -/
def htmlOps : SoupOps HtmlNode :=
  { findDivById := fun n i => Except.ok (findFirst (isDivWithId i) n)
    findFirstTag := fun n t => Except.ok (findFirst (isTagNamed t) n)
    findDivByClass := fun n c => Except.ok (findFirst (isDivWithClass c) n)
    attrsHas := fun n k =>
      match htmlAttrs n with
      | some attrs => Except.ok (attrs.lookup k).isSome
      | none => Except.error PyErr.attributeError
    attrGet := fun n k =>
      match htmlAttrs n with
      | some attrs =>
        match attrs.lookup k with
        | some v => Except.ok v
        | none => Except.error PyErr.keyError
      | none => Except.error PyErr.typeError
    attrGetD := fun n k d =>
      match htmlAttrs n with
      | some attrs => Except.ok ((attrs.lookup k).getD d)
      | none => Except.error PyErr.attributeError
    textStrip := fun n => Except.ok (pyStrip (getTextNode n)) }

/-- The `src` attribute of an element node, if any. -/
def srcOf (n : HtmlNode) : Option Str :=
  match htmlAttrs n with
  | some attrs => attrs.lookup ("src".toList)
  | none => none

/-- The comic image element of a document: the first `img` descendant of
the comic-body container, when both exist. -/
def firstComicImg (doc : HtmlNode) : Option HtmlNode :=
  (findFirst (isDivWithId comicBodyId) doc).bind
    (fun cd => findFirst (isTagNamed ("img".toList)) cd)

/-- URL resolution in `download_image` (scraper.py lines 120-121):
prepend `https:` to a protocol-relative URL. -/
def resolve_image_url (image_url : Str) : Str :=
  if pyStartsWith ("//".toList) image_url then "https:".toList ++ image_url
  else image_url

/-- `download_image` from scraper.py, over an HTTP oracle `http` giving the
response bytes for a URL (or `none` on request failure): the request is
issued for the resolved URL. -/
def download_image {B : Type} (http : Str → Option B) (image_url : Str) :
    Option B :=
  http (resolve_image_url image_url)

/-- `get_file_extension` from scraper.py: `url.split(".")[-1]`. -/
def get_file_extension (url : Str) : Str :=
  (splitOnChar '.' url).getLastD []

/-- The base filename computed by `get_current_comic`
(scraper.py lines 186-187). -/
def base_filename_of (title : Str) : Str :=
  let title_str := sanitize_filename title
  if title_str ≠ "unknown".toList then title_str else "smbc_comic".toList

/-- A successful file write performed by `get_current_comic`: the image
write of `save_image` or the metadata file write. -/
inductive FileEvent (B : Type) where
  | imageWrite : Str → B → FileEvent B
  | metaWrite : Str → Str → FileEvent B
deriving DecidableEq

/-- The external world of one `get_current_comic` run: the fetch result for
the SMBC base URL, the parser collaborator, the image HTTP oracle, and
success of the image and metadata writes by target path. -/
structure ScrapeWorld (S B : Type) where
  fetched : Option S
  ops : SoupOps S
  http : Str → Option B
  saveOk : Str → Bool
  metaOk : Str → Bool

/-- `get_current_comic` from scraper.py (lines 165-213): fetch, extract,
build the base filename, download, save the image, then write the metadata
file; each stage short-circuits to `false` with no further writes. The
second component is the list of successful file writes in order. -/
def get_current_comic {S B : Type} (w : ScrapeWorld S B) :
    Bool × List (FileEvent B) :=
  match w.fetched with
  | none => (false, [])
  | some soup =>
    match extract_comic_data w.ops soup with
    | none => (false, [])
    | some comic_data =>
      let base_filename := base_filename_of comic_data.title
      match download_image w.http comic_data.image_url with
      | none => (false, [])
      | some image_data =>
        let image_path := base_filename ++ '.' :: get_file_extension comic_data.image_url
        if w.saveOk image_path then
          let metadata_path := base_filename ++ "_metadata.txt".toList
          if w.metaOk metadata_path then
            (true, [FileEvent.imageWrite image_path image_data,
                    FileEvent.metaWrite metadata_path (metadataContent comic_data)])
          else (false, [FileEvent.imageWrite image_path image_data])
        else (false, [])

-- Concrete documents and worlds used to instantiate the theorems.

/-- An image element with a protocol-relative `src` and a `title` (given a
text child so that the element is truthy under every reading of the
source's `if not comic_img` test). -/
def imgElemEx : HtmlNode :=
  HtmlNode.elem ("img".toList)
    [(("src".toList), ("//www.smbc-comics.com/comics/x.png".toList)),
     (("title".toList), ("funny".toList))]
    [HtmlNode.textNode ("x".toList)]

/-- A document with a comic body and image but no blog area. -/
def docNoBlog : HtmlNode :=
  HtmlNode.elem ("html".toList) []
    [HtmlNode.elem ("div".toList) [(("id".toList), comicBodyId)] [imgElemEx]]

/-- A document with no comic-body container. -/
def docNoComic : HtmlNode :=
  HtmlNode.elem ("html".toList) [] [HtmlNode.elem ("div".toList) [] []]

/-- An image element whose `src` attribute is present but empty (given a
text child so that the element is truthy under every reading of the
source's `if not comic_img` test). -/
def imgEmptySrc : HtmlNode :=
  HtmlNode.elem ("img".toList) [(("src".toList), [])]
    [HtmlNode.textNode ("x".toList)]

/-- A document whose comic image carries an empty `src` attribute. -/
def docEmptySrc : HtmlNode :=
  HtmlNode.elem ("html".toList) []
    [HtmlNode.elem ("div".toList) [(("id".toList), comicBodyId)] [imgEmptySrc]]

/-- A parser collaborator whose blog-area lookup raises AttributeError
while the comic-body lookups succeed. -/
def failingOps : SoupOps Unit :=
  { findDivById := fun _ i =>
      if i == comicBodyId then Except.ok (some ()) else Except.error PyErr.attributeError
    findFirstTag := fun _ _ => Except.ok (some ())
    findDivByClass := fun _ _ => Except.error PyErr.attributeError
    attrsHas := fun _ _ => Except.ok true
    attrGet := fun _ _ => Except.ok ("x".toList)
    attrGetD := fun _ _ d => Except.ok d
    textStrip := fun _ => Except.ok [] }

-- Basic lemmas about the string model.

theorem splitOnChar_ne_nil (sep : Char) (s : Str) : splitOnChar sep s ≠ [] := by
  cases s with
  | nil => simp [splitOnChar]
  | cons c cs =>
    simp only [splitOnChar]
    split
    · simp
    · split <;> simp

theorem splitOnChar_append_cons (sep : Char) (a b : Str) :
    splitOnChar sep (a ++ sep :: b) = splitOnChar sep a ++ splitOnChar sep b := by
  induction a with
  | nil => simp [splitOnChar]
  | cons c cs ih =>
    by_cases hc : c = sep
    · subst hc
      simp [splitOnChar, ih]
    · have hbeq : (c == sep) = false := by simp [hc]
      simp only [List.cons_append, splitOnChar, hbeq, Bool.false_eq_true, if_false,
        List.append_eq]
      rw [ih]
      cases h : splitOnChar sep cs with
      | nil => exact absurd h (splitOnChar_ne_nil sep cs)
      | cons r rs => simp [h]

theorem splitOnChar_of_not_mem (sep : Char) (s : Str) (h : sep ∉ s) :
    splitOnChar sep s = [s] := by
  induction s with
  | nil => simp [splitOnChar]
  | cons c cs ih =>
    simp only [List.mem_cons, not_or] at h
    have hc : (c == sep) = false := by
      simp only [beq_eq_false_iff_ne]
      exact Ne.symm h.1
    simp [splitOnChar, hc, ih h.2]

theorem splitFirstOn_append_cons (sep : Char) (a b : Str) (h : sep ∉ a) :
    splitFirstOn sep (a ++ sep :: b) = (a, b) := by
  induction a with
  | nil => simp [splitFirstOn]
  | cons c cs ih =>
    simp only [List.mem_cons, not_or] at h
    have hc : (c == sep) = false := by
      simp only [beq_eq_false_iff_ne]
      exact Ne.symm h.1
    simp [splitFirstOn, hc, ih h.2]

theorem pyStrip_cons_space (s : Str) : pyStrip (' ' :: s) = pyStrip s := by
  simp [pyStrip, List.dropWhile]

theorem parseMetadataLine_keyval (m : Str → Option Str) (key v k : Str)
    (hkey : ':' ∉ key) :
    parseMetadataLine m (key ++ ':' :: v) k =
      if k == pyStrip key then some (pyStrip v) else m k := by
  have hany : ((key ++ ':' :: v).any fun c => c == ':') = true :=
    List.any_eq_true.mpr ⟨':', by simp, by simp⟩
  simp only [parseMetadataLine, hany, if_true, splitFirstOn_append_cons ':' key v hkey]

theorem parseMetadataLine_no_colon (m : Str → Option Str) (line : Str)
    (h : ':' ∉ line) :
    parseMetadataLine m line = m := by
  have hany : (line.any fun c => c == ':') = false := by
    cases hq : line.any fun c => c == ':'
    · rfl
    · obtain ⟨x, hx, hbe⟩ := List.any_eq_true.mp hq
      exact absurd hx (by simp at hbe; simp [hbe, h])
  simp [parseMetadataLine, hany]

theorem metadataContent_lines (cd : ComicRecord)
    (hdn : '\n' ∉ cd.date) (hhn : '\n' ∉ cd.hover_text) (hun : '\n' ∉ cd.image_url) :
    splitOnChar '\n' (metadataContent cd) =
      splitOnChar '\n' ("Title: ".toList ++ cd.title) ++
        [("Date: ".toList ++ cd.date), ("Hover Text: ".toList ++ cd.hover_text),
         ("Image URL: ".toList ++ cd.image_url), []] := by
  have hnl : "\n".toList = ['\n'] := rfl
  have hshape : metadataContent cd =
      ("Title: ".toList ++ cd.title) ++ '\n' ::
        (("Date: ".toList ++ cd.date) ++ '\n' ::
          (("Hover Text: ".toList ++ cd.hover_text) ++ '\n' ::
            (("Image URL: ".toList ++ cd.image_url) ++ '\n' :: []))) := by
    simp [metadataContent, hnl, List.append_assoc]
  have hd2 : '\n' ∉ "Date: ".toList ++ cd.date := by
    simp only [List.mem_append, not_or]
    exact ⟨by decide, hdn⟩
  have hh2 : '\n' ∉ "Hover Text: ".toList ++ cd.hover_text := by
    simp only [List.mem_append, not_or]
    exact ⟨by decide, hhn⟩
  have hu2 : '\n' ∉ "Image URL: ".toList ++ cd.image_url := by
    simp only [List.mem_append, not_or]
    exact ⟨by decide, hun⟩
  rw [hshape, splitOnChar_append_cons, splitOnChar_append_cons,
    splitOnChar_append_cons, splitOnChar_append_cons,
    splitOnChar_of_not_mem '\n' _ hd2, splitOnChar_of_not_mem '\n' _ hh2,
    splitOnChar_of_not_mem '\n' _ hu2]
  simp [splitOnChar]

theorem keyval_shape_date (d : Str) :
    "Date: ".toList ++ d = "Date".toList ++ ':' :: (' ' :: d) := by
  have h : "Date: ".toList = "Date".toList ++ ':' :: [' '] := by decide
  simp [h]

theorem keyval_shape_hover (h : Str) :
    "Hover Text: ".toList ++ h = "Hover Text".toList ++ ':' :: (' ' :: h) := by
  have hx : "Hover Text: ".toList = "Hover Text".toList ++ ':' :: [' '] := by decide
  simp [hx]

theorem keyval_shape_url (u : Str) :
    "Image URL: ".toList ++ u = "Image URL".toList ++ ':' :: (' ' :: u) := by
  have hx : "Image URL: ".toList = "Image URL".toList ++ ':' :: [' '] := by decide
  simp [hx]

/-- C6: `sanitize_filename` removes exactly the blocked characters: no
blocked character survives, the output is an order-preserving subsequence
of the input, and every non-blocked character is kept, occurrence for
occurrence. -/
theorem sanitize_filename_spec (s : Str) :
    (∀ c ∈ sanitize_filename s, c ∉ INVALID_FILENAME_CHARS) ∧
    List.Sublist (sanitize_filename s) s ∧
    (∀ c ∈ s, c ∉ INVALID_FILENAME_CHARS → c ∈ sanitize_filename s) ∧
    (∀ c, c ∉ INVALID_FILENAME_CHARS →
      (sanitize_filename s).count c = s.count c) := by
  refine ⟨?_, List.filter_sublist s, ?_, ?_⟩
  · intro c hc
    have h := List.mem_filter.mp hc
    simpa using h.2
  · intro c hc hni
    exact List.mem_filter.mpr ⟨hc, by simpa using hni⟩
  · intro c hni
    exact List.count_filter (by simpa using hni)

theorem sanitize_filename_spec_witness :
    'a' ∈ ("a/b.c".toList) ∧ 'a' ∉ INVALID_FILENAME_CHARS ∧
      'a' ∈ sanitize_filename ("a/b.c".toList) :=
  ⟨by decide, by decide,
    (sanitize_filename_spec ("a/b.c".toList)).2.2.1 'a' (by decide) (by decide)⟩

/-- C7: the base filename is the sanitized title unless the sanitized title
equals the literal string `unknown`, in which case it is the fallback
`smbc_comic`; the test is on the sanitized title. -/
theorem base_filename_spec (title : Str) :
    (sanitize_filename title = "unknown".toList →
      base_filename_of title = "smbc_comic".toList) ∧
    (sanitize_filename title ≠ "unknown".toList →
      base_filename_of title = sanitize_filename title) := by
  constructor
  · intro h
    simp only [base_filename_of]
    rw [if_neg (by simp [h])]
  · intro h
    simp only [base_filename_of]
    rw [if_pos h]

theorem base_filename_spec_witness :
    sanitize_filename ("un.known".toList) = "unknown".toList ∧
      base_filename_of ("un.known".toList) = "smbc_comic".toList :=
  ⟨by decide, (base_filename_spec ("un.known".toList)).1 (by decide)⟩

/-- C8: `download_image` requests exactly the resolved URL, where a URL
starting with `//` gets `https:` prepended and any other URL is passed
through unchanged. -/
theorem download_image_resolution {B : Type} (http : Str → Option B)
    (image_url : Str) :
    download_image http image_url = http (resolve_image_url image_url) ∧
    (pyStartsWith ("//".toList) image_url = true →
      resolve_image_url image_url = "https:".toList ++ image_url) ∧
    (pyStartsWith ("//".toList) image_url = false →
      resolve_image_url image_url = image_url) := by
  refine ⟨rfl, ?_, ?_⟩
  · intro h
    unfold resolve_image_url
    rw [h]
    simp
  · intro h
    unfold resolve_image_url
    rw [h]
    simp

theorem download_image_resolution_witness :
    pyStartsWith ("//".toList) ("//example.com/img.png".toList) = true ∧
      resolve_image_url ("//example.com/img.png".toList) =
        "https:".toList ++ "//example.com/img.png".toList :=
  ⟨by decide,
    (download_image_resolution (fun _ : Str => (none : Option Unit))
      ("//example.com/img.png".toList)).2.1 (by decide)⟩

/-- C9: `get_file_extension` returns the segment after the last dot of the
whole URL: `png` for a plain image URL, and the last dot-separated segment
of the query string when the query contains a dot. -/
theorem get_file_extension_spec :
    (∀ a b : Str, '.' ∉ b → get_file_extension (a ++ '.' :: b) = b) ∧
    get_file_extension ("https://x.com/path/comic.png".toList) = "png".toList ∧
    get_file_extension ("https://x.com/path/comic.png?v=1.2".toList) = "2".toList := by
  refine ⟨?_, by decide, by decide⟩
  intro a b hb
  unfold get_file_extension
  rw [splitOnChar_append_cons, splitOnChar_of_not_mem '.' b hb]
  simp [List.getLastD_concat]

theorem get_file_extension_spec_witness :
    '.' ∉ ("png".toList) ∧
      get_file_extension ("x".toList ++ '.' :: ("png".toList)) = "png".toList :=
  ⟨by decide, get_file_extension_spec.1 ("x".toList) ("png".toList) (by decide)⟩

/-- C1 as stated is false: a record whose hover text carries a leading
space is not reproduced verbatim by the colon-split parse, because the
parser strips the value. -/
theorem metadata_roundtrip_counterexample :
    parseMetadata
        (metadataContent
          (⟨("u".toList), ("t".toList), ("d".toList), (" h".toList)⟩ : ComicRecord))
        ("Hover Text".toList) = some ("h".toList) ∧
      parseMetadata
        (metadataContent
          (⟨("u".toList), ("t".toList), ("d".toList), (" h".toList)⟩ : ComicRecord))
        ("Hover Text".toList) ≠ some (" h".toList) := by
  constructor
  · decide
  · decide

/-- C1 (amended): for a record whose date, hover text and image URL contain
no newline and whose date and hover text are already stripped, writing the
metadata file and re-parsing it by first-colon split reproduces the Date
and Hover Text entries verbatim. -/
theorem metadata_roundtrip (cd : ComicRecord)
    (hdn : '\n' ∉ cd.date) (hhn : '\n' ∉ cd.hover_text) (hun : '\n' ∉ cd.image_url)
    (hds : pyStrip cd.date = cd.date) (hhs : pyStrip cd.hover_text = cd.hover_text) :
    parseMetadata (metadataContent cd) ("Date".toList) = some cd.date ∧
    parseMetadata (metadataContent cd) ("Hover Text".toList) = some cd.hover_text := by
  have hlines := metadataContent_lines cd hdn hhn hun
  constructor
  · unfold parseMetadata
    rw [hlines, List.foldl_append]
    simp only [List.foldl_cons, List.foldl_nil]
    rw [keyval_shape_date, keyval_shape_hover, keyval_shape_url]
    rw [parseMetadataLine_no_colon _ [] (by decide)]
    rw [parseMetadataLine_keyval _ ("Image URL".toList) (' ' :: cd.image_url)
      ("Date".toList) (by decide)]
    simp only [(by decide : (("Date".toList) == pyStrip ("Image URL".toList)) = false),
      Bool.false_eq_true, if_false]
    rw [parseMetadataLine_keyval _ ("Hover Text".toList) (' ' :: cd.hover_text)
      ("Date".toList) (by decide)]
    simp only [(by decide : (("Date".toList) == pyStrip ("Hover Text".toList)) = false),
      Bool.false_eq_true, if_false]
    rw [parseMetadataLine_keyval _ ("Date".toList) (' ' :: cd.date)
      ("Date".toList) (by decide)]
    simp only [(by decide : (("Date".toList) == pyStrip ("Date".toList)) = true), if_true]
    rw [pyStrip_cons_space, hds]
  · unfold parseMetadata
    rw [hlines, List.foldl_append]
    simp only [List.foldl_cons, List.foldl_nil]
    rw [keyval_shape_date, keyval_shape_hover, keyval_shape_url]
    rw [parseMetadataLine_no_colon _ [] (by decide)]
    rw [parseMetadataLine_keyval _ ("Image URL".toList) (' ' :: cd.image_url)
      ("Hover Text".toList) (by decide)]
    simp only [(by decide : (("Hover Text".toList) == pyStrip ("Image URL".toList)) = false),
      Bool.false_eq_true, if_false]
    rw [parseMetadataLine_keyval _ ("Hover Text".toList) (' ' :: cd.hover_text)
      ("Hover Text".toList) (by decide)]
    simp only [(by decide : (("Hover Text".toList) == pyStrip ("Hover Text".toList)) = true),
      if_true]
    rw [pyStrip_cons_space, hhs]

theorem metadata_roundtrip_witness :
    parseMetadata
        (metadataContent
          (⟨("//cdn.example/c/today.png".toList), ("Today".toList),
            ("March 3rd, 2024".toList), ("funny".toList)⟩ : ComicRecord))
        ("Date".toList) = some ("March 3rd, 2024".toList) ∧
      parseMetadata
        (metadataContent
          (⟨("//cdn.example/c/today.png".toList), ("Today".toList),
            ("March 3rd, 2024".toList), ("funny".toList)⟩ : ComicRecord))
        ("Hover Text".toList) = some ("funny".toList) :=
  metadata_roundtrip
    (⟨("//cdn.example/c/today.png".toList), ("Today".toList),
      ("March 3rd, 2024".toList), ("funny".toList)⟩ : ComicRecord)
    (by decide) (by decide) (by decide) (by decide) (by decide)

theorem extractTitleDate_htmlOps_ok (doc : HtmlNode) :
    ∃ td, extractTitleDate htmlOps doc = Except.ok td := by
  unfold extractTitleDate
  simp only [htmlOps, Bind.bind, Except.bind, pure, Except.pure]
  repeat' split
  all_goals exact ⟨_, rfl⟩

/-- C5: if steps 1-3 of extraction succeed but a structural-access error is
raised while traversing the blog area in steps 4-6, the whole extraction
returns the failure outcome. -/
theorem extract_titledate_error {S : Type} (ops : SoupOps S) (soup : S)
    (iu : Str × Str) (e : PyErr)
    (h1 : extractImagePart ops soup = Except.ok (some iu))
    (h2 : extractTitleDate ops soup = Except.error e) :
    extract_comic_data ops soup = none := by
  unfold extract_comic_data extract_comic_data_body
  simp [h1, h2, Bind.bind, Except.bind, pure, Except.pure]

theorem extract_titledate_error_witness :
    extractImagePart failingOps () = Except.ok (some (("x".toList), [])) ∧
      extractTitleDate failingOps () = Except.error PyErr.attributeError ∧
      extract_comic_data failingOps () = none :=
  ⟨rfl, rfl,
    extract_titledate_error failingOps () (("x".toList), [])
      PyErr.attributeError rfl rfl⟩

/-- C3: a document with no comic-body container makes extraction return the
absent result with no exception raised (the try-body completes normally
with the `None` early return). -/
theorem extract_no_comicbody (doc : HtmlNode)
    (h : findFirst (isDivWithId comicBodyId) doc = none) :
    extract_comic_data_body htmlOps doc = Except.ok none ∧
    extract_comic_data htmlOps doc = none := by
  have hbody : extract_comic_data_body htmlOps doc = Except.ok none := by
    unfold extract_comic_data_body extractImagePart
    simp only [htmlOps, Bind.bind, Except.bind, pure, Except.pure, h]
  exact ⟨hbody, by simp [extract_comic_data, hbody]⟩

theorem extract_no_comicbody_witness :
    extract_comic_data_body htmlOps docNoComic = Except.ok none ∧
      extract_comic_data htmlOps docNoComic = none :=
  extract_no_comicbody docNoComic rfl

/-- C4: a document with a comic-body container holding an image with a
`src` attribute, but no blog-area container, extracts to a record with the
image URL from `src` and both title and date equal to `unknown`. -/
theorem extract_no_blogarea (doc cd : HtmlNode) (t : Str)
    (attrs : List (Str × Str)) (cs : List HtmlNode) (u : Str)
    (hcd : findFirst (isDivWithId comicBodyId) doc = some cd)
    (himg : findFirst (isTagNamed ("img".toList)) cd = some (HtmlNode.elem t attrs cs))
    (hsrc : attrs.lookup ("src".toList) = some u)
    (hblog : findFirst (isDivWithId blogAreaId) doc = none) :
    extract_comic_data htmlOps doc =
      some ⟨u, ("unknown".toList), ("unknown".toList),
        (attrs.lookup ("title".toList)).getD []⟩ := by
  unfold extract_comic_data extract_comic_data_body extractImagePart extractTitleDate
  simp only [htmlOps, Bind.bind, Except.bind, pure, Except.pure, hcd, himg, hsrc,
    hblog, htmlAttrs, Option.isSome]
  simp

theorem extract_no_blogarea_witness :
    extract_comic_data htmlOps docNoBlog =
      some ⟨("//www.smbc-comics.com/comics/x.png".toList), ("unknown".toList),
        ("unknown".toList), ("funny".toList)⟩ := by
  have h := extract_no_blogarea docNoBlog
    (HtmlNode.elem ("div".toList) [(("id".toList), comicBodyId)] [imgElemEx])
    ("img".toList)
    [(("src".toList), ("//www.smbc-comics.com/comics/x.png".toList)),
     (("title".toList), ("funny".toList))]
    [HtmlNode.textNode ("x".toList)]
    ("//www.smbc-comics.com/comics/x.png".toList)
    rfl rfl rfl rfl
  simpa using h

/-- C2 as stated is false: a document whose comic image carries an empty
`src` attribute yields a record whose `image_url` is the empty string, not
a non-empty one. -/
theorem image_url_nonempty_counterexample :
    extract_comic_data htmlOps docEmptySrc =
      some ⟨[], ("unknown".toList), ("unknown".toList), []⟩ ∧
      (extract_comic_data htmlOps docEmptySrc).map ComicRecord.image_url =
        some [] := ⟨rfl, rfl⟩

/-- C2 (amended): whenever extraction returns a record, the comic image
element exists and carries a `src` attribute, and the record's `image_url`
is exactly that attribute's value - which may be the empty string. -/
theorem extract_image_url_from_src (doc : HtmlNode) (r : ComicRecord)
    (h : extract_comic_data htmlOps doc = some r) :
    (firstComicImg doc).bind srcOf = some r.image_url := by
  rcases hcd : findFirst (isDivWithId comicBodyId) doc with _ | cd
  · have hnone : extract_comic_data htmlOps doc = none := by
      unfold extract_comic_data extract_comic_data_body extractImagePart
      simp only [htmlOps, Bind.bind, Except.bind, pure, Except.pure, hcd]
    rw [hnone] at h
    exact absurd h (by simp)
  · rcases himg : findFirst (isTagNamed ("img".toList)) cd with _ | img
    · have hnone : extract_comic_data htmlOps doc = none := by
        unfold extract_comic_data extract_comic_data_body extractImagePart
        simp only [htmlOps, Bind.bind, Except.bind, pure, Except.pure, hcd, himg]
      rw [hnone] at h
      exact absurd h (by simp)
    · cases img with
      | textNode s =>
        have hnone : extract_comic_data htmlOps doc = none := by
          unfold extract_comic_data extract_comic_data_body extractImagePart
          simp only [htmlOps, Bind.bind, Except.bind, pure, Except.pure, hcd, himg,
            htmlAttrs]
        rw [hnone] at h
        exact absurd h (by simp)
      | elem t attrs cs =>
        rcases hsrc : attrs.lookup ("src".toList) with _ | u
        · have hnone : extract_comic_data htmlOps doc = none := by
            unfold extract_comic_data extract_comic_data_body extractImagePart
            simp only [htmlOps, Bind.bind, Except.bind, pure, Except.pure, hcd, himg,
              htmlAttrs, hsrc, Option.isSome]
            simp
          rw [hnone] at h
          exact absurd h (by simp)
        · obtain ⟨td, htd⟩ := extractTitleDate_htmlOps_ok doc
          have hsome : extract_comic_data htmlOps doc =
              some ⟨u, td.1, td.2, (attrs.lookup ("title".toList)).getD []⟩ := by
            unfold extract_comic_data extract_comic_data_body extractImagePart
            simp only [htd]
            simp only [htmlOps, Bind.bind, Except.bind, pure, Except.pure, hcd, himg,
              htmlAttrs, hsrc, Option.isSome]
            simp
          rw [hsome] at h
          injection h with h2
          subst h2
          unfold firstComicImg
          rw [hcd]
          simp only [Option.bind]
          rw [himg]
          simp only [Option.bind]
          exact hsrc

theorem extract_image_url_from_src_witness :
    (firstComicImg docNoBlog).bind srcOf =
      some ("//www.smbc-comics.com/comics/x.png".toList) :=
  extract_image_url_from_src docNoBlog
    (⟨("//www.smbc-comics.com/comics/x.png".toList), ("unknown".toList),
      ("unknown".toList), ("funny".toList)⟩ : ComicRecord) rfl

/-- C10: `get_current_comic` writes nothing when the fetch, the extraction
or the download fails; any write at all implies the download succeeded; and
a metadata write only ever appears as the second write, right after the
image write. -/
theorem get_current_comic_atomic {S B : Type} (w : ScrapeWorld S B) :
    (w.fetched = none → get_current_comic w = (false, [])) ∧
    (∀ soup, w.fetched = some soup → extract_comic_data w.ops soup = none →
      get_current_comic w = (false, [])) ∧
    (∀ soup cd, w.fetched = some soup → extract_comic_data w.ops soup = some cd →
      download_image w.http cd.image_url = none →
      get_current_comic w = (false, [])) ∧
    ((get_current_comic w).2 ≠ [] →
      ∃ soup cd b, w.fetched = some soup ∧
        extract_comic_data w.ops soup = some cd ∧
        download_image w.http cd.image_url = some b) ∧
    (∀ p c, FileEvent.metaWrite p c ∈ (get_current_comic w).2 →
      ∃ q b, (get_current_comic w).2 =
        [FileEvent.imageWrite q b, FileEvent.metaWrite p c]) := by
  refine ⟨?_, ?_, ?_, ?_, ?_⟩
  · intro h
    simp [get_current_comic, h]
  · intro soup hf he
    simp [get_current_comic, hf, he]
  · intro soup cd hf he hd
    simp [get_current_comic, hf, he, hd]
  · intro hne
    rcases hf : w.fetched with _ | soup
    · simp [get_current_comic, hf] at hne
    · rcases he : extract_comic_data w.ops soup with _ | cd
      · simp [get_current_comic, hf, he] at hne
      · rcases hd : download_image w.http cd.image_url with _ | b
        · simp [get_current_comic, hf, he, hd] at hne
        · exact ⟨soup, cd, b, rfl, he, hd⟩
  · intro p c hmem
    rcases hf : w.fetched with _ | soup
    · simp [get_current_comic, hf] at hmem
    · rcases he : extract_comic_data w.ops soup with _ | cd
      · simp [get_current_comic, hf, he] at hmem
      · rcases hd : download_image w.http cd.image_url with _ | b
        · simp [get_current_comic, hf, he, hd] at hmem
        · by_cases hs : w.saveOk
            (base_filename_of cd.title ++ '.' :: get_file_extension cd.image_url) = true
          · by_cases hm : w.metaOk
              (base_filename_of cd.title ++ "_metadata.txt".toList) = true
            · simp only [get_current_comic, hf, he, hd] at hmem ⊢
              rw [if_pos hs, if_pos hm] at hmem
              rw [if_pos hs, if_pos hm]
              simp at hmem
              obtain ⟨hp, hc⟩ := hmem
              subst hp
              subst hc
              exact ⟨_, b, rfl⟩
            · simp only [get_current_comic, hf, he, hd] at hmem
              rw [if_pos hs, if_neg hm] at hmem
              simp at hmem
          · simp only [get_current_comic, hf, he, hd] at hmem
            rw [if_neg hs] at hmem
            simp at hmem

theorem get_current_comic_atomic_witness :
    get_current_comic
      ({ fetched := none, ops := htmlOps, http := fun _ => (none : Option Unit),
         saveOk := fun _ => false, metaOk := fun _ => false } :
        ScrapeWorld HtmlNode Unit) = (false, []) :=
  (get_current_comic_atomic
    ({ fetched := none, ops := htmlOps, http := fun _ => (none : Option Unit),
       saveOk := fun _ => false, metaOk := fun _ => false } :
      ScrapeWorld HtmlNode Unit)).1 rfl
